import Mathlib

/-!
Verification of fuse4redis (src/fuse4redis.c), a FUSE filesystem that exposes
the keys of a Redis key-value store as the files of a flat single-directory
namespace.

The embedding models:
* the Redis database as an association list from key names to byte-string
  values, with the concrete semantics of the Redis commands the program
  issues (SET, EXISTS, DEL, RENAME, STRLEN, GETRANGE, SETRANGE, KEYS);
* the `kvs_*` operation layer exactly as the C interprets each reply
  (reply-type checks, EPROTO on unexpected shapes, ENOENT mapping, the
  EIOCode interception done by the `kvs_RedisCommand` wrapper);
* the `f4r_*` FUSE callbacks (getattr, mknod, unlink, rename, truncate,
  read, write, readdir, ftruncate, fgetattr), including the C's
  `size_t` casts where the source stores a possibly-negative error code
  into an unsigned variable;
* the transport-level retry loop of `kvs_RedisCommand` as a separate small
  model parameterized by the outcome of each wire attempt.

Functional claims are settled against the pure store model (the store
answers every command); the retry/reconnect policy is settled against the
transport model.
-/

namespace Fuse4Redis

/-- File names / redis key names, as C character strings. -/
abbrev Name := List Char

/-- Byte strings: the values redis keys hold. -/
abbrev Bytes := List Nat

/-- The redis database: an association list from key names to values.
All operations below keep at most one binding per key. -/
abbrev Store := List (Name × Bytes)

/-- errno constant (Linux value); the C returns these negated. -/
def EIOCode : Int := 5

/-- errno constant (Linux value). -/
def ENOENT : Int := 2

/-- errno constant (Linux value). -/
def EEXIST : Int := 17

/-- errno constant (Linux value). -/
def EISDIR : Int := 21

/-- errno constant (Linux value). -/
def ENOTDIR : Int := 20

/-- errno constant (Linux value). -/
def EINVAL : Int := 22

/-- errno constant (Linux value). -/
def ENOMEM : Int := 12

/-- errno constant (Linux value). -/
def EPROTO : Int := 71

/-- Look a key up in the store (first matching binding). -/
def kvlookup : Store → Name → Option Bytes
  | [], _ => none
  | (k, v) :: rest, n => if k = n then some v else kvlookup rest n

/-- Remove every binding of a key from the store. -/
def kverase : Store → Name → Store
  | [], _ => []
  | (k, v) :: rest, n => if k = n then kverase rest n else (k, v) :: kverase rest n

/-- Bind a key to a value (replacing any previous binding). -/
def kvset (s : Store) (n : Name) (v : Bytes) : Store :=
  kverase s n ++ [(n, v)]

/-- The key names currently present, in store order (redis `KEYS *`). -/
def keysOf (s : Store) : List Name := s.map Prod.fst

/-- hiredis reply values, by REDIS_REPLY_* type: STATUS, INTEGER, STRING
(bulk byte string), ARRAY (of key names, as returned by KEYS), ERROR. -/
inductive Reply where
  | status : String → Reply
  | int : Int → Reply
  | bulk : Bytes → Reply
  | arr : List Name → Reply
  | err : String → Reply
  deriving DecidableEq, Repr

/-- Redis SET: unconditionally bind the key; replies +OK. -/
def redisSET (s : Store) (n : Name) (v : Bytes) : Reply × Store :=
  (.status "OK", kvset s n v)

/-- Redis EXISTS: integer reply 1 if the key is present, else 0. -/
def redisEXISTS (s : Store) (n : Name) : Reply × Store :=
  (.int (if (kvlookup s n).isSome then 1 else 0), s)

/-- Redis DEL: integer reply counting removed keys (here 0 or 1). -/
def redisDEL (s : Store) (n : Name) : Reply × Store :=
  if (kvlookup s n).isSome then (.int 1, kverase s n) else (.int 0, s)

/-- Redis RENAME: error reply if the source key is absent; otherwise move the
value, blindly replacing any existing destination (renaming a key onto
itself succeeds and keeps the key). -/
def redisRENAME (s : Store) (n m : Name) : Reply × Store :=
  match kvlookup s n with
  | none => (.err "ERR no such key", s)
  | some v => (.status "OK", kvset (kverase s n) m v)

/-- Redis STRLEN: integer reply, 0 for an absent key. -/
def redisSTRLEN (s : Store) (n : Name) : Reply × Store :=
  (.int ((kvlookup s n).getD []).length, s)

/-- Value computed by Redis GETRANGE: inclusive byte range [start, fin] with
negative indices counting from the end, clamped to the value's extent. -/
def getrangeVal (v : Bytes) (start fin : Int) : Bytes :=
  let len : Int := v.length
  let s1 : Int := if start < 0 then len + start else start
  let e1 : Int := if fin < 0 then len + fin else fin
  let s2 : Int := if s1 < 0 then 0 else s1
  let e2 : Int := if e1 < 0 then 0 else e1
  let e3 : Int := if e2 ≥ len then len - 1 else e2
  if len = 0 ∨ s2 > e3 then []
  else (v.drop s2.toNat).take (e3 - s2 + 1).toNat

/-- Redis GETRANGE: bulk-string reply; an absent key acts as the empty
string. -/
def redisGETRANGE (s : Store) (n : Name) (start fin : Int) : Reply × Store :=
  (.bulk (getrangeVal ((kvlookup s n).getD []) start fin), s)

/-- Value computed by Redis SETRANGE: zero-pad the old value up to `off` if it
is shorter, then overwrite `bytes.length` bytes starting at `off`. -/
def setrangeVal (old : Bytes) (off : Nat) (bytes : Bytes) : Bytes :=
  (old ++ List.replicate (off - old.length) 0).take off ++ bytes
    ++ old.drop (off + bytes.length)

/-- Redis SETRANGE: error on negative offset; with an empty payload just
report the current length; otherwise write and reply with the new total
length. An absent key acts as the empty string. -/
def redisSETRANGE (s : Store) (n : Name) (off : Int) (bytes : Bytes) :
    Reply × Store :=
  if off < 0 then (.err "ERR offset is out of range", s)
  else if bytes = [] then (.int ((kvlookup s n).getD []).length, s)
  else
    let w := setrangeVal ((kvlookup s n).getD []) off.toNat bytes
    (.int w.length, kvset s n w)

/-- Redis KEYS *: array reply listing every key name. -/
def redisKEYS (s : Store) : Reply × Store := (.arr (keysOf s), s)

/-- The reply interception done by `kvs_RedisCommand` when the store answers:
an ERROR reply is freed (the caller sees no reply) and the call returns
-EIOCode; any other reply is handed to the caller with return value 0. -/
def kvs_run : Reply × Store → Int × Option Reply × Store
  | (.err _, s) => (-EIOCode, none, s)
  | (r, s) => (0, some r, s)

/-- kvs_CreateEmptyKey: SET name "" (an empty value represents an empty
file); returns the wrapper's result. -/
def kvs_CreateEmptyKey (s : Store) (name : Name) : Int × Store :=
  let (result, _reply, s1) := kvs_run (redisSET s name [])
  (result, s1)

/-- kvs_KeyExists: EXISTS name; integer reply 1/0 passed through, -EPROTO on
an unexpected reply type. -/
def kvs_KeyExists (s : Store) (name : Name) : Int × Store :=
  let (result, reply, s1) := kvs_run (redisEXISTS s name)
  if result < 0 then (result, s1)
  else
    match reply with
    | some (.int n) => (n, s1)
    | _ => (-EPROTO, s1)

/-- kvs_DeleteKey: DEL name; reply 0 (key did not exist) maps to -ENOENT. -/
def kvs_DeleteKey (s : Store) (name : Name) : Int × Store :=
  let (result, reply, s1) := kvs_run (redisDEL s name)
  if result < 0 then (result, s1)
  else
    match reply with
    | some (.int k) => if k = 0 then (-ENOENT, s1) else (0, s1)
    | _ => (-EPROTO, s1)

/-- kvs_RenameKey: RENAME name newname with no prior existence check on the
destination; any store error (for example an absent source) surfaces as the
wrapper's -EIOCode. -/
def kvs_RenameKey (s : Store) (name newname : Name) : Int × Store :=
  let (result, _reply, s1) := kvs_run (redisRENAME s name newname)
  if result < 0 then (result, s1) else (0, s1)

/-- kvs_GetKeyLength: EXISTS first (STRLEN reports 0 for an absent key, which
would be ambiguous), -ENOENT if absent, then STRLEN. The C declares the
return type size_t yet returns negative error codes; call sites apply the
resulting unsigned cast via `toSizeT`. -/
def kvs_GetKeyLength (s : Store) (name : Name) : Int × Store :=
  let (result, s1) := kvs_KeyExists s name
  if result < 0 then (result, s1)
  else if result = 0 then (-ENOENT, s1)
  else
    let (r2, reply, s2) := kvs_run (redisSTRLEN s1 name)
    if r2 < 0 then (r2, s2)
    else
      match reply with
      | some (.int n) => (n, s2)
      | _ => (-EPROTO, s2)

/-- Conversion of a C int/off_t value to size_t (64-bit unsigned). -/
def toSizeT (i : Int) : Nat := (i % (2 ^ 64 : Int)).toNat

/-- kvs_AppendZeroedBytes: grow an existing key to `newsize` by SETRANGE of a
single zero byte at offset newsize - 1 (computed in size_t arithmetic, hence
the wrap-around for newsize = 0; callers guarantee newsize exceeds the
current length, so newsize is at least 1 in practice). -/
def kvs_AppendZeroedBytes (s : Store) (name : Name) (newsize : Nat) :
    Int × Store :=
  let off : Nat := (newsize + (2 ^ 64 - 1)) % 2 ^ 64
  let (result, reply, s1) := kvs_run (redisSETRANGE s name off [0])
  if result < 0 then (result, s1)
  else
    match reply with
    | some (.int _) => (0, s1)
    | _ => (-EPROTO, s1)

/-- kvs_TruncateKey: for newsize > 0, GETRANGE name 0 newsize (note the
inclusive end: the reply holds up to newsize + 1 bytes) and then SET the key
to exactly the first newsize bytes of that reply (the C passes the reply
buffer with explicit length newsize); for newsize = 0, SET the key empty. -/
def kvs_TruncateKey (s : Store) (name : Name) (newsize : Nat) : Int × Store :=
  if 0 < newsize then
    let (r1, reply1, s1) := kvs_run (redisGETRANGE s name 0 newsize)
    if r1 < 0 then (r1, s1)
    else
      match reply1 with
      | some (.bulk b) =>
        let (r2, _reply2, s2) := kvs_run (redisSET s1 name (b.take newsize))
        (r2, s2)
      | _ => (-EPROTO, s1)
  else
    let (r2, _reply2, s2) := kvs_run (redisSET s name [])
    (r2, s2)

/-- kvs_ReadPartialValue: GETRANGE name offset (offset + size - 1); returns
the reply's length together with the bytes copied to the caller's buffer. -/
def kvs_ReadPartialValue (s : Store) (name : Name) (size : Nat)
    (offset : Int) : (Int × Bytes) × Store :=
  let (result, reply, s1) := kvs_run (redisGETRANGE s name offset (offset + size - 1))
  if result < 0 then ((result, []), s1)
  else
    match reply with
    | some (.bulk b) => ((b.length, b), s1)
    | _ => ((-EPROTO, []), s1)

/-- kvs_WritePartialValue: SETRANGE name offset bytes; on success returns the
number of bytes written (the C returns its `size` argument, the length of
the buffer handed to redis), not redis's new-total-length reply. -/
def kvs_WritePartialValue (s : Store) (name : Name) (bytes : Bytes)
    (offset : Int) : Int × Store :=
  let (result, reply, s1) := kvs_run (redisSETRANGE s name offset bytes)
  if result < 0 then (result, s1)
  else
    match reply with
    | some (.int _) => (bytes.length, s1)
    | _ => (-EPROTO, s1)

/-- The filler loop of kvs_ReadDirectory: deliver each name to the sink in
turn; a sink that signals no more capacity (none) stops the enumeration with
-ENOMEM. -/
def fillAll {σ : Type} (filler : σ → Name → Option σ) :
    List Name → σ → Int × σ
  | [], buf => (0, buf)
  | k :: ks, buf =>
    match filler buf k with
    | none => (-ENOMEM, buf)
    | some b2 => fillAll filler ks b2

/-- kvs_ReadDirectory: KEYS *, then feed every returned name to the
caller-supplied FUSE filler. -/
def kvs_ReadDirectory {σ : Type} (s : Store) (filler : σ → Name → Option σ)
    (buf : σ) : Int × σ :=
  let (result, reply, _s1) := kvs_run (redisKEYS s)
  if result < 0 then (result, buf)
  else
    match reply with
    | some (.arr ks) => fillAll filler ks buf
    | _ => (-EPROTO, buf)

/-- The FILE_NAME macro: path[0] == '/' ? path + 1 : path. -/
def FILE_NAME : Name → Name
  | [] => []
  | c :: rest => if c = '/' then rest else c :: rest

/-- The root path "/". -/
def rootPath : Name := ['/']

/-- Permission bits S_IRWXU, S_IRWXG and S_IRWXO combined (0777). -/
def S_IRWXA : Nat := 511

/-- S_IFDIR file-format bit (0040000). -/
def S_IFDIR : Nat := 16384

/-- S_IFREG file-format bit (0100000). -/
def S_IFREG : Nat := 32768

/-- S_IFMT file-format mask (0170000). -/
def S_IFMT : Nat := 61440

/-- O_EXCL open flag (0200), tested by f4r_mknod against the mode word. -/
def O_EXCL : Nat := 128

/-- The stat fields f4r_getattr fills (uid/gid, taken from the calling
process, are outside the model). -/
structure Stat where
  st_mode : Nat
  st_size : Nat
  st_blksize : Nat
  st_blocks : Nat
  deriving DecidableEq, Repr

/-- f4r_getattr: the root path reports a directory of size 0; any other path
names the key FILE_NAME(path): absent keys report -ENOENT (checked via
EXISTS because STRLEN cannot distinguish absent from empty), present keys
report a regular file sized by kvs_GetKeyLength. The C stores that length in
a size_t variable, so its negative-error check on it is dead code; the cast
is kept here. -/
def f4r_getattr (s : Store) (path : Name) : Except Int Stat :=
  let filename := FILE_NAME path
  if path = rootPath then
    .ok ⟨S_IRWXA ||| S_IFDIR, 0, 512, 0⟩
  else
    let (ex, _s1) := kvs_KeyExists s filename
    if ex < 0 then .error ex
    else if ex = 0 then .error (-ENOENT)
    else
      let (len, _s2) := kvs_GetKeyLength s filename
      let fsize : Nat := toSizeT len
      .ok ⟨S_IRWXA ||| S_IFREG, fsize, 512,
           if fsize > 0 then fsize / 512 + 1 else 0⟩

/-- f4r_mknod: only regular files can be created (-EINVAL otherwise); with
O_EXCL set in the mode word an existing key is rejected with -EEXIST;
otherwise the key is (re)created empty. -/
def f4r_mknod (s : Store) (path : Name) (mode : Nat) : Int × Store :=
  let filename := FILE_NAME path
  if mode &&& S_IFMT ≠ S_IFREG then (-EINVAL, s)
  else
    let check : Int × Store :=
      if mode &&& O_EXCL ≠ 0 then
        let (ex, s1) := kvs_KeyExists s filename
        if ex < 0 then (ex, s1)
        else if ex ≠ 0 then (-EEXIST, s1)
        else (0, s1)
      else (0, s)
    let (c, s1) := check
    if c < 0 then (c, s1)
    else
      let (r, s2) := kvs_CreateEmptyKey s1 filename
      if r < 0 then (r, s2) else (0, s2)

/-- f4r_unlink: deleting the root is -EISDIR; otherwise delegate to
kvs_DeleteKey on the stripped name. -/
def f4r_unlink (s : Store) (path : Name) : Int × Store :=
  if path = rootPath then (-EISDIR, s)
  else kvs_DeleteKey s (FILE_NAME path)

/-- f4r_rename: delegate to kvs_RenameKey on the stripped names. -/
def f4r_rename (s : Store) (path newpath : Name) : Int × Store :=
  kvs_RenameKey s (FILE_NAME path) (FILE_NAME newpath)

/-- f4r_truncate: compare the key's current length with the requested size
and dispatch to the no-op, zero-extension or truncation case. The C stores
kvs_GetKeyLength's result in a size_t variable (its negative-error check is
dead) and the comparisons against the off_t argument happen after the usual
arithmetic conversion to size_t; both casts are modeled by `toSizeT`. -/
def f4r_truncate (s : Store) (path : Name) (newsize : Int) : Int × Store :=
  let filename := FILE_NAME path
  let (len, s1) := kvs_GetKeyLength s filename
  let ksize : Nat := toSizeT len
  if ksize = toSizeT newsize then (0, s1)
  else if toSizeT newsize > ksize then
    kvs_AppendZeroedBytes s1 filename (toSizeT newsize)
  else kvs_TruncateKey s1 filename (toSizeT newsize)

/-- f4r_read: reading the root is -EISDIR; otherwise a ranged read of the
key FILE_NAME(path). -/
def f4r_read (s : Store) (path : Name) (size : Nat) (offset : Int) :
    (Int × Bytes) × Store :=
  if path = rootPath then ((-EISDIR, []), s)
  else kvs_ReadPartialValue s (FILE_NAME path) size offset

/-- f4r_write: writing the root is -EISDIR; otherwise a ranged write of the
key FILE_NAME(path). -/
def f4r_write (s : Store) (path : Name) (bytes : Bytes) (offset : Int) :
    Int × Store :=
  if path = rootPath then (-EISDIR, s)
  else kvs_WritePartialValue s (FILE_NAME path) bytes offset

/-- f4r_readdir: only the root is listable (-ENOTDIR otherwise), then
kvs_ReadDirectory. -/
def f4r_readdir {σ : Type} (s : Store) (path : Name)
    (filler : σ → Name → Option σ) (buf : σ) : Int × σ :=
  if path ≠ rootPath then (-ENOTDIR, buf)
  else kvs_ReadDirectory s filler buf

/-- f4r_ftruncate: delegates to f4r_truncate, but passes the already-stripped
FILE_NAME(path) as the path argument. -/
def f4r_ftruncate (s : Store) (path : Name) (newsize : Int) : Int × Store :=
  f4r_truncate s (FILE_NAME path) newsize

/-- f4r_fgetattr: delegates to f4r_getattr, but passes the already-stripped
FILE_NAME(path) as the path argument. -/
def f4r_fgetattr (s : Store) (path : Name) : Except Int Stat :=
  f4r_getattr s (FILE_NAME path)

/-- Outcome of one call to the kvs_RedisCommand wrapper: either the function
returns (with a return code and the reply stored through resultReply, none
when the reply was freed), or the whole process terminates. -/
inductive ExecOutcome where
  | ret : Int → Option Reply → ExecOutcome
  | exited : Int → ExecOutcome
  deriving DecidableEq, Repr

/-- Whether the outcome is process termination. -/
def ExecOutcome.isExit : ExecOutcome → Bool
  | .exited _ => true
  | _ => false

/-- How kvs_RedisCommand treats a reply it did obtain: an ERROR reply is
logged, freed and turned into -EIOCode with resultReply nulled; everything else
returns 0 with the reply passed to the caller. -/
def interpretReply (r : Reply) : ExecOutcome :=
  match r with
  | .err _ => .ret (-EIOCode) none
  | r => .ret 0 (some r)

/-- The retry loop of kvs_RedisCommand. `first` and `second` are the outcomes
of the successive wire attempts at issuing the command (none models a
transport failure: redisvCommand returned NULL); `rec1Ok`/`rec2Ok` say
whether kvs_Reconnect succeeds when invoked (on failure it terminates the
process itself, modeled as the exit code -4). After a transport failure the
C reconnects and re-issues exactly once; a second transport failure
reconnects once more (tries reaches 2), leaves the loop with a NULL reply
and exits with code -5. The result carries the outcome together with the
number of wire issues and of reconnect attempts. -/
def kvs_RedisCommand (first second : Option Reply) (rec1Ok rec2Ok : Bool) :
    ExecOutcome × Nat × Nat :=
  match first with
  | some r => (interpretReply r, 1, 0)
  | none =>
    if rec1Ok then
      match second with
      | some r => (interpretReply r, 2, 1)
      | none => if rec2Ok then (.exited (-5), 2, 2) else (.exited (-4), 2, 2)
    else (.exited (-4), 1, 1)

/-- A directory sink that always has room and collects the delivered names in
order. -/
def collectSink : List Name → Name → Option (List Name) :=
  fun b k => some (b ++ [k])

/-- A directory sink with room for `cap` names, after which it signals that
its buffer is full. -/
def cappedSink (cap : Nat) : List Name → Name → Option (List Name) :=
  fun b k => if b.length < cap then some (b ++ [k]) else none

/-- The store obtained by exclusively creating each listed name, in order, on
an initially empty database. -/
def createAll (names : List Name) : Store :=
  names.foldl (fun st n => (kvs_CreateEmptyKey st n).2) []

/-- Whether a path starts with a doubled separator, the one shape on which
stripping one leading separator is not idempotent. -/
def startsWithDoubleSep : Name → Bool
  | [] => false
  | [_] => false
  | c :: d :: _ => c == '/' && d == '/'

/-! ### Store lemmas -/

lemma kvlookup_kverase_self (s : Store) (n : Name) :
    kvlookup (kverase s n) n = none := by
  induction s with
  | nil => rfl
  | cons p rest ih =>
    obtain ⟨k, v⟩ := p
    by_cases h : k = n
    · simp [kverase, h, ih]
    · simp [kverase, kvlookup, h, ih]

lemma kvlookup_kverase_ne (s : Store) (n m : Name) (h : m ≠ n) :
    kvlookup (kverase s n) m = kvlookup s m := by
  induction s with
  | nil => rfl
  | cons p rest ih =>
    obtain ⟨k, v⟩ := p
    by_cases hk : k = n
    · subst hk
      have hk2 : k ≠ m := fun e => h e.symm
      simp [kverase, kvlookup, hk2, ih]
    · simp [kverase, kvlookup, hk, ih]

lemma kvlookup_append_of_none (a b : Store) (m : Name)
    (h : kvlookup a m = none) : kvlookup (a ++ b) m = kvlookup b m := by
  induction a with
  | nil => rfl
  | cons p rest ih =>
    obtain ⟨k, v⟩ := p
    by_cases hk : k = m
    · simp [kvlookup, hk] at h
    · simp [kvlookup, hk] at h ⊢
      exact ih h

lemma kvlookup_kvset_self (s : Store) (n : Name) (v : Bytes) :
    kvlookup (kvset s n v) n = some v := by
  unfold kvset
  rw [kvlookup_append_of_none _ _ _ (kvlookup_kverase_self s n)]
  simp [kvlookup]

lemma kvlookup_kvset_ne (s : Store) (n m : Name) (v : Bytes) (h : m ≠ n) :
    kvlookup (kvset s n v) m = kvlookup s m := by
  unfold kvset
  induction s with
  | nil => simp [kvlookup, kverase, Ne.symm h]
  | cons p rest ih =>
    obtain ⟨k, w⟩ := p
    by_cases hk : k = n
    · subst hk
      have : k ≠ m := fun e => h (e.symm.trans rfl)
      simp [kverase, kvlookup, this, ih]
    · simp only [kverase, hk, ite_false, List.cons_append, kvlookup]
      by_cases hm : k = m
      · simp [hm]
      · simp [hm, ih]

lemma kverase_of_none (s : Store) (n : Name) (h : kvlookup s n = none) :
    kverase s n = s := by
  induction s with
  | nil => rfl
  | cons p rest ih =>
    obtain ⟨k, v⟩ := p
    by_cases hk : k = n
    · simp [kvlookup, hk] at h
    · simp [kvlookup, hk] at h
      simp [kverase, hk, ih h]

lemma mem_keysOf_kverase (s : Store) (n m : Name)
    (h : m ∈ keysOf (kverase s n)) : m ∈ keysOf s := by
  induction s with
  | nil => simp [kverase, keysOf] at h
  | cons p rest ih =>
    obtain ⟨k, v⟩ := p
    by_cases hk : k = n
    · rw [show kverase ((k, v) :: rest) n = kverase rest n from by
        simp [kverase, hk]] at h
      rw [show keysOf ((k, v) :: rest) = k :: keysOf rest from rfl]
      exact List.mem_cons_of_mem _ (ih h)
    · rw [show kverase ((k, v) :: rest) n = (k, v) :: kverase rest n from by
        simp [kverase, hk]] at h
      rw [show keysOf ((k, v) :: kverase rest n)
          = k :: keysOf (kverase rest n) from rfl] at h
      rw [show keysOf ((k, v) :: rest) = k :: keysOf rest from rfl]
      rcases List.mem_cons.mp h with h1 | h1
      · exact h1 ▸ List.mem_cons_self _ _
      · exact List.mem_cons_of_mem _ (ih h1)

lemma not_mem_keysOf_kverase (s : Store) (n : Name) :
    n ∉ keysOf (kverase s n) := by
  induction s with
  | nil => simp [kverase, keysOf]
  | cons p rest ih =>
    obtain ⟨k, v⟩ := p
    by_cases hk : k = n
    · simpa [kverase, hk] using ih
    · simp [kverase, hk, keysOf] at ih ⊢
      exact ⟨fun e => hk e.symm, ih⟩

lemma keysOf_kvset (s : Store) (n : Name) (v : Bytes) :
    keysOf (kvset s n v) = keysOf (kverase s n) ++ [n] := by
  simp [kvset, keysOf]

/-! ### GETRANGE / SETRANGE lemmas -/

lemma getrangeVal_nat (v : Bytes) (a b : Nat) :
    getrangeVal v (a : Int) (b : Int) = (v.drop a).take (b + 1 - a) := by
  unfold getrangeVal
  have ha : ¬ ((a : Int) < 0) := by omega
  have hb : ¬ ((b : Int) < 0) := by omega
  simp only [if_neg ha, if_neg hb]
  rcases Nat.eq_zero_or_pos v.length with h0 | h0
  · have hv : v = [] := List.length_eq_zero.mp h0
    subst hv
    simp
  · rcases Nat.lt_or_ge b v.length with hbl | hbl
    · have he : ¬ ((b : Int) ≥ (v.length : Int)) := by omega
      rw [if_neg he]
      rcases Nat.lt_or_ge b a with hab | hab
      · have hc : ((v.length : Int) = 0 ∨ (a : Int) > (b : Int)) := by omega
        rw [if_pos hc]
        have hz : b + 1 - a = 0 := by omega
        simp [hz]
      · have hc : ¬ ((v.length : Int) = 0 ∨ (a : Int) > (b : Int)) := by omega
        rw [if_neg hc]
        have h1 : ((b : Int) - (a : Int) + 1).toNat = b + 1 - a := by omega
        have h2 : ((a : Int)).toNat = a := by omega
        rw [h1, h2]
    · have he : ((b : Int) ≥ (v.length : Int)) := by omega
      rw [if_pos he]
      rcases Nat.lt_or_ge a v.length with hal | hal
      · have hc : ¬ ((v.length : Int) = 0 ∨ (a : Int) > (v.length : Int) - 1) := by
          omega
        rw [if_neg hc]
        have h1 : ((v.length : Int) - 1 - (a : Int) + 1).toNat = v.length - a := by
          omega
        have h2 : ((a : Int)).toNat = a := by omega
        rw [h1, h2]
        have hdl : (v.drop a).length = v.length - a := by simp
        rw [List.take_of_length_le (le_of_eq hdl),
            List.take_of_length_le (hdl ▸ by omega)]
      · have hc : ((v.length : Int) = 0 ∨ (a : Int) > (v.length : Int) - 1) := by
          omega
        rw [if_pos hc]
        have hd : v.drop a = [] := List.drop_eq_nil_of_le hal
        simp [hd]

lemma kvs_run_status (t : String) (s : Store) :
    kvs_run (.status t, s) = (0, some (.status t), s) := rfl

lemma kvs_run_int (n : Int) (s : Store) :
    kvs_run (.int n, s) = (0, some (.int n), s) := rfl

lemma kvs_run_bulk (b : Bytes) (s : Store) :
    kvs_run (.bulk b, s) = (0, some (.bulk b), s) := rfl

lemma kvs_run_arr (a : List Name) (s : Store) :
    kvs_run (.arr a, s) = (0, some (.arr a), s) := rfl

lemma kvs_run_err (e : String) (s : Store) :
    kvs_run (.err e, s) = (-EIOCode, none, s) := rfl

lemma setrangeVal_beyond (v bytes : Bytes) (off : Nat) (h : v.length ≤ off) :
    setrangeVal v off bytes = v ++ List.replicate (off - v.length) 0 ++ bytes := by
  unfold setrangeVal
  have h1 : (v ++ List.replicate (off - v.length) 0).take off
      = v ++ List.replicate (off - v.length) 0 := by
    apply List.take_of_length_le
    simp
    omega
  have hd : v.drop (off + bytes.length) = [] := by
    apply List.drop_eq_nil_of_le
    omega
  rw [h1, hd]
  simp

/-! ### Directory-listing lemmas -/

lemma fillAll_collect (ks b : List Name) :
    fillAll collectSink ks b = (0, b ++ ks) := by
  induction ks generalizing b with
  | nil => simp [fillAll]
  | cons k ks ih => simp [fillAll, collectSink, ih]

lemma fillAll_capped (cap : Nat) (ks b : List Name) (hb : b.length ≤ cap)
    (hover : cap < b.length + ks.length) :
    (fillAll (cappedSink cap) ks b).1 = -ENOMEM := by
  induction ks generalizing b with
  | nil =>
    simp only [List.length_nil] at hover
    omega
  | cons k ks ih =>
    simp only [List.length_cons] at hover
    by_cases hfull : b.length < cap
    · have hstep : fillAll (cappedSink cap) (k :: ks) b
          = fillAll (cappedSink cap) ks (b ++ [k]) := by
        simp [fillAll, cappedSink, hfull]
      rw [hstep]
      apply ih
      · simp
        omega
      · simp
        omega
    · have hstep : fillAll (cappedSink cap) (k :: ks) b = (-ENOMEM, b) := by
        simp [fillAll, cappedSink, hfull]
      rw [hstep]

lemma createEmpty_store (s : Store) (n : Name) :
    (kvs_CreateEmptyKey s n).2 = kvset s n [] := rfl

lemma keysOf_foldl_create (names : List Name) (st : Store)
    (hnd : names.Nodup) (hfree : ∀ m ∈ names, kvlookup st m = none) :
    keysOf (names.foldl (fun s n => (kvs_CreateEmptyKey s n).2) st)
      = keysOf st ++ names := by
  induction names generalizing st with
  | nil => simp
  | cons n rest ih =>
    have h1 : kvlookup st n = none := hfree n (by simp)
    have hnotin : n ∉ rest := (List.nodup_cons.mp hnd).1
    rw [List.foldl_cons, ih _ (List.nodup_cons.mp hnd).2 ?hrest]
    case hrest =>
      intro m hm
      show kvlookup (kvset st n []) m = none
      have hmn : m ≠ n := fun e => hnotin (e ▸ hm)
      rw [kvlookup_kvset_ne st n m [] hmn]
      exact hfree m (by simp [hm])
    show keysOf (kvset st n []) ++ rest = keysOf st ++ n :: rest
    rw [keysOf_kvset, kverase_of_none st n h1]
    simp

/-! ### Evaluation lemmas for the kvs layer -/

lemma keyExists_present (s : Store) (name : Name) (v : Bytes)
    (h : kvlookup s name = some v) : kvs_KeyExists s name = (1, s) := by
  simp [kvs_KeyExists, redisEXISTS, h, kvs_run_int]

lemma keyExists_absent (s : Store) (name : Name)
    (h : kvlookup s name = none) : kvs_KeyExists s name = (0, s) := by
  simp [kvs_KeyExists, redisEXISTS, h, kvs_run_int]

lemma getKeyLength_present (s : Store) (name : Name) (v : Bytes)
    (h : kvlookup s name = some v) :
    kvs_GetKeyLength s name = ((v.length : Int), s) := by
  simp [kvs_GetKeyLength, keyExists_present s name v h, redisSTRLEN, h,
        kvs_run_int]

lemma getKeyLength_absent (s : Store) (name : Name)
    (h : kvlookup s name = none) :
    kvs_GetKeyLength s name = (-ENOENT, s) := by
  simp [kvs_GetKeyLength, keyExists_absent s name h, ENOENT]

lemma toSizeT_natCast (n : Nat) (h : n < 2 ^ 64) : toSizeT (n : Int) = n := by
  unfold toSizeT
  omega

lemma readPartial_present (s : Store) (name : Name) (w : Bytes)
    (size a : Nat) (h : kvlookup s name = some w) (hsz : 1 ≤ size) :
    kvs_ReadPartialValue s name size (a : Int)
      = (((((w.drop a).take size).length : Int), (w.drop a).take size), s) := by
  have h1 : getrangeVal ((kvlookup s name).getD []) (a : Int)
      ((a : Int) + (size : Int) - 1) = (w.drop a).take size := by
    rw [h]
    have hcast : (a : Int) + (size : Int) - 1 = ((a + size - 1 : Nat) : Int) := by
      omega
    rw [Option.getD_some, hcast, getrangeVal_nat]
    congr 1
    omega
  unfold kvs_ReadPartialValue redisGETRANGE
  rw [h1, kvs_run_bulk]
  simp

/-! ### FILE_NAME lemmas -/

lemma FILE_NAME_idem (p : Name) (h : startsWithDoubleSep p = false) :
    FILE_NAME (FILE_NAME p) = FILE_NAME p := by
  cases p with
  | nil => rfl
  | cons c rest =>
    simp only [FILE_NAME]
    by_cases hc : c = '/'
    · rw [if_pos hc]
      cases rest with
      | nil => rfl
      | cons d r2 =>
        have hd : d ≠ '/' := by
          intro e
          simp [startsWithDoubleSep, hc, e] at h
        simp only [FILE_NAME]
        rw [if_neg hd]
    · rw [if_neg hc]
      simp only [FILE_NAME]
      rw [if_neg hc]

lemma FILE_NAME_ne_root (p : Name) (hp : p ≠ rootPath)
    (h : startsWithDoubleSep p = false) : FILE_NAME p ≠ rootPath := by
  cases p with
  | nil => simp [FILE_NAME, rootPath]
  | cons c rest =>
    simp only [FILE_NAME]
    by_cases hc : c = '/'
    · rw [if_pos hc]
      intro e
      rw [e] at h
      simp [startsWithDoubleSep, hc, rootPath] at h
    · rw [if_neg hc]
      intro e
      rw [show rootPath = ['/'] from rfl] at e
      exact hc (by injection e)

lemma writePartial_beyond (s : Store) (name : Name) (v bytes : Bytes)
    (off : Nat) (hv : kvlookup s name = some v) (hn : bytes ≠ [])
    (hoff : v.length ≤ off) :
    kvs_WritePartialValue s name bytes (off : Int)
      = ((bytes.length : Int),
         kvset s name (v ++ List.replicate (off - v.length) 0 ++ bytes)) := by
  have hsr : redisSETRANGE s name (off : Int) bytes
      = (.int ((v ++ List.replicate (off - v.length) 0 ++ bytes).length : Int),
         kvset s name (v ++ List.replicate (off - v.length) 0 ++ bytes)) := by
    unfold redisSETRANGE
    rw [if_neg (by omega : ¬ ((off : Int) < 0)), if_neg hn]
    have ht : ((off : Int)).toNat = off := by omega
    rw [hv, Option.getD_some, ht, setrangeVal_beyond v bytes off hoff]
  unfold kvs_WritePartialValue
  rw [hsr, kvs_run_int]
  simp

/-! ### Claim theorems -/

/-- C1: for a key of current length L and a write of n ≥ 1 bytes at an offset
strictly beyond L, WriteRange accepts all n bytes; afterwards the value is
the old value, then zero bytes up to the offset, then the written bytes; its
length is offset + n; reading the gap [L, offset) gives zero bytes, reading
n bytes at the offset gives back exactly the written bytes, and any read at
or past offset + n returns nothing. -/
theorem c1_writeRange_past_end (s : Store) (name : Name) (v bytes : Bytes)
    (off sz : Nat)
    (hv : kvlookup s name = some v) (hn : bytes ≠ []) (hoff : v.length < off)
    (hsz : 1 ≤ sz) :
    (kvs_WritePartialValue s name bytes (off : Int)).1 = (bytes.length : Int) ∧
    kvlookup (kvs_WritePartialValue s name bytes (off : Int)).2 name
      = some (v ++ List.replicate (off - v.length) 0 ++ bytes) ∧
    ((kvlookup (kvs_WritePartialValue s name bytes (off : Int)).2 name).getD
        []).length = off + bytes.length ∧
    (kvs_ReadPartialValue (kvs_WritePartialValue s name bytes (off : Int)).2
        name (off - v.length) (v.length : Int)).1
      = (((off - v.length : Nat) : Int), List.replicate (off - v.length) 0) ∧
    (kvs_ReadPartialValue (kvs_WritePartialValue s name bytes (off : Int)).2
        name bytes.length (off : Int)).1
      = ((bytes.length : Int), bytes) ∧
    (kvs_ReadPartialValue (kvs_WritePartialValue s name bytes (off : Int)).2
        name sz ((off + bytes.length : Nat) : Int)).1 = (0, []) := by
  have hwrite := writePartial_beyond s name v bytes off hv hn (le_of_lt hoff)
  set w := v ++ List.replicate (off - v.length) 0 ++ bytes with hw
  have hlook : kvlookup (kvset s name w) name = some w :=
    kvlookup_kvset_self s name w
  have hwlen : w.length = off + bytes.length := by
    rw [hw]
    simp
    omega
  have hdropL : w.drop v.length = List.replicate (off - v.length) 0 ++ bytes := by
    rw [hw, List.append_assoc, List.drop_left]
  have hdropOff : w.drop off = bytes := by
    have hlen2 : (v ++ List.replicate (off - v.length) 0).length = off := by
      simp
      omega
    have h2 := List.drop_left (v ++ List.replicate (off - v.length) 0) bytes
    rw [hlen2] at h2
    rw [hw, h2]
  have hdropEnd : w.drop (off + bytes.length) = [] :=
    List.drop_eq_nil_of_le (le_of_eq hwlen)
  have htakeGap : (List.replicate (off - v.length) (0 : Nat) ++ bytes).take
      (off - v.length) = List.replicate (off - v.length) 0 := by
    have h2 := List.take_left (List.replicate (off - v.length) (0 : Nat)) bytes
    rwa [List.length_replicate] at h2
  refine ⟨?_, ?_, ?_, ?_, ?_, ?_⟩
  · rw [hwrite]
  · rw [hwrite]
    exact hlook
  · rw [hwrite]
    dsimp only
    rw [hlook, Option.getD_some, hwlen]
  · rw [hwrite]
    dsimp only
    rw [readPartial_present (kvset s name w) name w (off - v.length) v.length
        hlook (by omega)]
    dsimp only
    rw [hdropL, htakeGap]
    simp
  · rw [hwrite]
    dsimp only
    rw [readPartial_present (kvset s name w) name w bytes.length off hlook
        (List.length_pos.mpr hn)]
    dsimp only
    rw [hdropOff, List.take_length]
  · rw [hwrite]
    dsimp only
    rw [readPartial_present (kvset s name w) name w sz (off + bytes.length)
        hlook hsz]
    rw [hdropEnd]
    simp

/-- Witness for C1 at a concrete input: key "a" holds one byte, two bytes are
written at offset 3. -/
theorem c1_witness :
    kvlookup ([((['a'] : Name), ([7] : Bytes))] : Store) ['a'] = some [7] ∧
    ([1, 2] : Bytes) ≠ [] ∧ ([7] : Bytes).length < 3 ∧ (1 : Nat) ≤ 1 ∧
    ((kvs_WritePartialValue ([((['a'] : Name), ([7] : Bytes))] : Store) ['a']
        [1, 2] ((3 : Nat) : Int)).1 = (((2 : Nat) : Int)) ∧
     kvlookup (kvs_WritePartialValue ([((['a'] : Name), ([7] : Bytes))] : Store)
        ['a'] [1, 2] ((3 : Nat) : Int)).2 ['a'] = some [7, 0, 0, 1, 2] ∧
     ((kvlookup (kvs_WritePartialValue ([((['a'] : Name), ([7] : Bytes))] : Store)
        ['a'] [1, 2] ((3 : Nat) : Int)).2 ['a']).getD []).length = 5 ∧
     (kvs_ReadPartialValue (kvs_WritePartialValue
        ([((['a'] : Name), ([7] : Bytes))] : Store) ['a'] [1, 2]
        ((3 : Nat) : Int)).2 ['a'] 2 ((1 : Nat) : Int)).1
       = (((2 : Nat) : Int), [0, 0]) ∧
     (kvs_ReadPartialValue (kvs_WritePartialValue
        ([((['a'] : Name), ([7] : Bytes))] : Store) ['a'] [1, 2]
        ((3 : Nat) : Int)).2 ['a'] 2 ((3 : Nat) : Int)).1
       = (((2 : Nat) : Int), [1, 2]) ∧
     (kvs_ReadPartialValue (kvs_WritePartialValue
        ([((['a'] : Name), ([7] : Bytes))] : Store) ['a'] [1, 2]
        ((3 : Nat) : Int)).2 ['a'] 1 ((5 : Nat) : Int)).1 = (0, [])) :=
  ⟨by decide, by decide, by decide, by decide,
   c1_writeRange_past_end [((['a'] : Name), ([7] : Bytes))] ['a'] [7] [1, 2]
     3 1 (by decide) (by decide) (by decide) (by decide)⟩

lemma truncate_present (s : Store) (name : Name) (v : Bytes) (newsize : Nat)
    (hv : kvlookup s name = some v) (hle : newsize ≤ v.length) :
    kvs_TruncateKey s name newsize = (0, kvset s name (v.take newsize)) := by
  by_cases h0 : 0 < newsize
  · have hg := getrangeVal_nat v 0 newsize
    rw [Nat.cast_zero] at hg
    simp only [List.drop_zero, Nat.sub_zero] at hg
    have hgr : redisGETRANGE s name 0 (newsize : Int)
        = (.bulk (v.take (newsize + 1)), s) := by
      unfold redisGETRANGE
      rw [hv, Option.getD_some, hg]
    unfold kvs_TruncateKey
    rw [if_pos h0, hgr, kvs_run_bulk]
    dsimp only
    rw [show (v.take (newsize + 1)).take newsize = v.take newsize from by
      rw [List.take_take]
      congr 1
      omega]
    simp [redisSET, kvs_run_status]
  · have hz : newsize = 0 := by omega
    subst hz
    unfold kvs_TruncateKey
    simp [redisSET, kvs_run_status]

/-- C2: truncating an existing key to any newsize at most its current length
leaves the key holding exactly the first newsize bytes of the original
value; truncating to 0 leaves the empty value, and a subsequent read of any
requested amount from offset 0 returns zero bytes. -/
theorem c2_truncate_preserves_prefix (s : Store) (name : Name) (v : Bytes)
    (newsize sz : Nat) (hv : kvlookup s name = some v)
    (hle : newsize ≤ v.length) (hsz : 1 ≤ sz) :
    (kvs_TruncateKey s name newsize).1 = 0 ∧
    kvlookup (kvs_TruncateKey s name newsize).2 name = some (v.take newsize) ∧
    kvlookup (kvs_TruncateKey s name 0).2 name = some [] ∧
    (kvs_ReadPartialValue (kvs_TruncateKey s name 0).2 name sz
        ((0 : Nat) : Int)).1 = (0, []) := by
  have ht := truncate_present s name v newsize hv hle
  have ht0 := truncate_present s name v 0 hv (Nat.zero_le _)
  have hlook0 : kvlookup (kvset s name (v.take 0)) name = some [] := by
    rw [kvlookup_kvset_self]
    simp
  refine ⟨?_, ?_, ?_, ?_⟩
  · rw [ht]
  · rw [ht]
    exact kvlookup_kvset_self s name _
  · rw [ht0]
    exact hlook0
  · rw [ht0]
    dsimp only
    rw [readPartial_present _ name [] sz 0 hlook0 hsz]
    simp

/-- Witness for C2 at a concrete input: key "a" holds three bytes, truncated
to two. -/
theorem c2_witness :
    kvlookup ([((['a'] : Name), ([1, 2, 3] : Bytes))] : Store) ['a']
      = some [1, 2, 3] ∧
    (2 : Nat) ≤ ([1, 2, 3] : Bytes).length ∧ (1 : Nat) ≤ 1 ∧
    ((kvs_TruncateKey ([((['a'] : Name), ([1, 2, 3] : Bytes))] : Store)
        ['a'] 2).1 = 0 ∧
     kvlookup (kvs_TruncateKey ([((['a'] : Name), ([1, 2, 3] : Bytes))] : Store)
        ['a'] 2).2 ['a'] = some [1, 2] ∧
     kvlookup (kvs_TruncateKey ([((['a'] : Name), ([1, 2, 3] : Bytes))] : Store)
        ['a'] 0).2 ['a'] = some [] ∧
     (kvs_ReadPartialValue
        (kvs_TruncateKey ([((['a'] : Name), ([1, 2, 3] : Bytes))] : Store)
          ['a'] 0).2 ['a'] 1 ((0 : Nat) : Int)).1 = (0, [])) :=
  ⟨by decide, by decide, by decide,
   c2_truncate_preserves_prefix [((['a'] : Name), ([1, 2, 3] : Bytes))] ['a']
     [1, 2, 3] 2 1 (by decide) (by decide) (by decide)⟩

/-- C3: an application-level error reply makes the executor return -EIOCode with
the reply freed (the caller receives none), after a single wire issue and no
reconnect; a re-issue happens only when the first attempt was a transport
failure, and then it is exactly one reconnect followed by exactly one
re-issue of the command; two consecutive transport failures terminate the
process; and whenever the executor returns 0 the caller's reply is
non-null. -/
theorem c3_executor_retry_policy (first second : Option Reply) (b1 b2 : Bool)
    (e : String) (r : Reply) (rep : Option Reply) :
    kvs_RedisCommand (some (.err e)) second b1 b2 = (.ret (-EIOCode) none, 1, 0) ∧
    ((kvs_RedisCommand first second b1 b2).2.1 = 2 → first = none) ∧
    ((kvs_RedisCommand first second b1 b2).2.2 ≠ 0 → first = none) ∧
    kvs_RedisCommand none (some r) true b2 = (interpretReply r, 2, 1) ∧
    (kvs_RedisCommand none none b1 b2).1.isExit = true ∧
    ((kvs_RedisCommand first second b1 b2).1 = .ret 0 rep → rep ≠ none) := by
  refine ⟨rfl, ?_, ?_, rfl, ?_, ?_⟩
  · cases first with
    | some r2 => simp [kvs_RedisCommand]
    | none => intro _; rfl
  · cases first with
    | some r2 => simp [kvs_RedisCommand]
    | none => intro _; rfl
  · cases b1 <;> cases b2 <;> rfl
  · have hir : ∀ r2 : Reply, interpretReply r2 = .ret 0 rep → rep ≠ none := by
      intro r2 h
      cases r2 <;> simp [interpretReply, EIOCode] at h <;> simp [← h]
    cases first with
    | some r2 =>
      intro h
      exact hir r2 h
    | none =>
      cases b1 with
      | true =>
        cases second with
        | some r2 =>
          intro h
          exact hir r2 h
        | none =>
          cases b2 <;> intro h <;> simp [kvs_RedisCommand] at h
      | false =>
        intro h
        simp [kvs_RedisCommand] at h

/-- Witness for C3 at concrete inputs (using a non-error first reply and a
reply receptacle holding it). -/
theorem c3_witness :
    kvs_RedisCommand (some (.err "ERR boom")) none true true
      = (.ret (-EIOCode) none, 1, 0) ∧
    ((kvs_RedisCommand (some (.int 1)) none true true).2.1 = 2
      → (some (.int 1) : Option Reply) = none) ∧
    ((kvs_RedisCommand (some (.int 1)) none true true).2.2 ≠ 0
      → (some (.int 1) : Option Reply) = none) ∧
    kvs_RedisCommand none (some (.int 1)) true true
      = (interpretReply (.int 1), 2, 1) ∧
    (kvs_RedisCommand none none true true).1.isExit = true ∧
    ((kvs_RedisCommand (some (.int 1)) none true true).1
        = .ret 0 (some (.int 1)) → (some (.int 1) : Option Reply) ≠ none) :=
  c3_executor_retry_policy (some (.int 1)) none true true "ERR boom" (.int 1)
    (some (.int 1))

/-- C4: a ranged read of size ≥ 1 on an existing key returns exactly the
bytes of the value lying in [offset, offset + size), that is
min(size, length - offset) bytes, and it returns fewer bytes than requested
only when the value is shorter than offset + size. -/
theorem c4_readRange_exact (s : Store) (name : Name) (v : Bytes)
    (size off : Nat) (hv : kvlookup s name = some v) (hsz : 1 ≤ size) :
    (kvs_ReadPartialValue s name size (off : Int)).1
      = ((((v.drop off).take size).length : Int), (v.drop off).take size) ∧
    ((v.drop off).take size).length = min size (v.length - off) ∧
    (((v.drop off).take size).length < size → v.length < off + size) := by
  refine ⟨?_, ?_, ?_⟩
  · rw [readPartial_present s name v size off hv hsz]
  · simp
  · intro h
    simp at h
    omega

/-- Witness for C4 at a concrete input: three-byte value, read 5 bytes from
offset 1. -/
theorem c4_witness :
    kvlookup ([((['a'] : Name), ([1, 2, 3] : Bytes))] : Store) ['a']
      = some [1, 2, 3] ∧
    (1 : Nat) ≤ 5 ∧
    ((kvs_ReadPartialValue ([((['a'] : Name), ([1, 2, 3] : Bytes))] : Store)
        ['a'] 5 ((1 : Nat) : Int)).1
      = ((((([1, 2, 3] : Bytes).drop 1).take 5).length : Int),
         (([1, 2, 3] : Bytes).drop 1).take 5) ∧
     ((([1, 2, 3] : Bytes).drop 1).take 5).length
       = min 5 (([1, 2, 3] : Bytes).length - 1) ∧
     (((([1, 2, 3] : Bytes).drop 1).take 5).length < 5
       → ([1, 2, 3] : Bytes).length < 1 + 5)) :=
  ⟨by decide, by decide,
   c4_readRange_exact [((['a'] : Name), ([1, 2, 3] : Bytes))] ['a'] [1, 2, 3]
     5 1 (by decide) (by decide)⟩

lemma renameKey_present (s : Store) (name newname : Name) (v : Bytes)
    (hv : kvlookup s name = some v) :
    kvs_RenameKey s name newname = (0, kvset (kverase s name) newname v) := by
  simp [kvs_RenameKey, redisRENAME, hv, kvs_run_status]

/-- C5 counterexample: renaming the existing key "a" onto the (existing)
destination "a" — the same name — succeeds, yet afterwards the source name
is still queryable, refuting the claim's conjunct that for every existing
source and every destination the source name is no longer queryable. -/
theorem c5_counterexample :
    (kvs_RenameKey ([((['a'] : Name), ([1] : Bytes))] : Store) ['a'] ['a']).1
      = 0 ∧
    kvlookup (kvs_RenameKey ([((['a'] : Name), ([1] : Bytes))] : Store)
        ['a'] ['a']).2 ['a'] = some [1] := by
  decide

/-- C5 amended: for every existing source name and every destination name
distinct from the source — including a destination that already exists —
rename succeeds without any prior existence check on the destination;
afterwards the destination holds the source's prior value and the source
name is neither queryable nor enumerable. -/
theorem c5_rename_replaces_destination (s : Store) (name newname : Name)
    (v : Bytes) (hv : kvlookup s name = some v) (hne : name ≠ newname) :
    (kvs_RenameKey s name newname).1 = 0 ∧
    kvlookup (kvs_RenameKey s name newname).2 newname = some v ∧
    kvlookup (kvs_RenameKey s name newname).2 name = none ∧
    name ∉ keysOf (kvs_RenameKey s name newname).2 := by
  have hr := renameKey_present s name newname v hv
  refine ⟨by rw [hr], ?_, ?_, ?_⟩
  · rw [hr]
    exact kvlookup_kvset_self _ _ _
  · rw [hr]
    dsimp only
    rw [kvlookup_kvset_ne _ _ _ _ hne]
    exact kvlookup_kverase_self s name
  · rw [hr]
    dsimp only
    rw [keysOf_kvset]
    intro hmem
    rcases List.mem_append.mp hmem with h1 | h1
    · exact not_mem_keysOf_kverase s name (mem_keysOf_kverase _ _ _ h1)
    · simp at h1
      exact hne h1

/-- Witness for C5 (amended) at a concrete input: "a" renamed onto the
pre-existing "b". -/
theorem c5_witness :
    kvlookup ([((['a'] : Name), ([5] : Bytes)),
               ((['b'] : Name), ([9] : Bytes))] : Store) ['a'] = some [5] ∧
    (['a'] : Name) ≠ ['b'] ∧
    ((kvs_RenameKey ([((['a'] : Name), ([5] : Bytes)),
        ((['b'] : Name), ([9] : Bytes))] : Store) ['a'] ['b']).1 = 0 ∧
     kvlookup (kvs_RenameKey ([((['a'] : Name), ([5] : Bytes)),
        ((['b'] : Name), ([9] : Bytes))] : Store) ['a'] ['b']).2 ['b']
       = some [5] ∧
     kvlookup (kvs_RenameKey ([((['a'] : Name), ([5] : Bytes)),
        ((['b'] : Name), ([9] : Bytes))] : Store) ['a'] ['b']).2 ['a']
       = none ∧
     (['a'] : Name) ∉ keysOf (kvs_RenameKey ([((['a'] : Name), ([5] : Bytes)),
        ((['b'] : Name), ([9] : Bytes))] : Store) ['a'] ['b']).2) :=
  ⟨by decide, by decide,
   c5_rename_replaces_destination
     [((['a'] : Name), ([5] : Bytes)), ((['b'] : Name), ([9] : Bytes))]
     ['a'] ['b'] [5] (by decide) (by decide)⟩

/-- C6: for any non-root path, getattr reports NotFound exactly when the
named key is absent, and otherwise a regular file whose size is the key's
value length; the root path reports a directory of size 0. The length bound
reflects the size_t domain of the store-reported length. -/
theorem c6_getattr_reports (s : Store) (path : Name) (hnr : path ≠ rootPath)
    (hlen : ((kvlookup s (FILE_NAME path)).getD []).length < 2 ^ 64) :
    (f4r_getattr s path = .error (-ENOENT)
      ↔ kvlookup s (FILE_NAME path) = none) ∧
    (kvlookup s (FILE_NAME path) ≠ none →
      f4r_getattr s path
        = .ok ⟨S_IRWXA ||| S_IFREG,
               ((kvlookup s (FILE_NAME path)).getD []).length, 512,
               if ((kvlookup s (FILE_NAME path)).getD []).length > 0
               then ((kvlookup s (FILE_NAME path)).getD []).length / 512 + 1
               else 0⟩) ∧
    f4r_getattr s rootPath = .ok ⟨S_IRWXA ||| S_IFDIR, 0, 512, 0⟩ := by
  have hroot : f4r_getattr s rootPath = .ok ⟨S_IRWXA ||| S_IFDIR, 0, 512, 0⟩ := by
    simp [f4r_getattr]
  cases hcase : kvlookup s (FILE_NAME path) with
  | none =>
    have hget : f4r_getattr s path = .error (-ENOENT) := by
      unfold f4r_getattr
      rw [if_neg hnr, keyExists_absent s (FILE_NAME path) hcase]
      norm_num
    exact ⟨by simp [hget, hcase], by simp [hcase], hroot⟩
  | some v =>
    rw [hcase, Option.getD_some] at hlen
    have hget : f4r_getattr s path
        = .ok ⟨S_IRWXA ||| S_IFREG, v.length, 512,
               if v.length > 0 then v.length / 512 + 1 else 0⟩ := by
      unfold f4r_getattr
      rw [if_neg hnr, keyExists_present s (FILE_NAME path) v hcase]
      dsimp only
      rw [getKeyLength_present s (FILE_NAME path) v hcase]
      dsimp only
      rw [toSizeT_natCast v.length hlen]
      norm_num
    refine ⟨?_, ?_, hroot⟩
    · constructor
      · intro h
        rw [hget] at h
        exact absurd h (by simp)
      · intro h
        exact absurd h (by simp)
    · intro _
      rw [hget]
      simp

/-- Witness for C6 at a concrete input: store holding "a" of length 2,
queried at path "/a". -/
theorem c6_witness :
    (['/', 'a'] : Name) ≠ rootPath ∧
    ((kvlookup ([((['a'] : Name), ([1, 2] : Bytes))] : Store)
        (FILE_NAME ['/', 'a'])).getD []).length < 2 ^ 64 ∧
    ((f4r_getattr ([((['a'] : Name), ([1, 2] : Bytes))] : Store) ['/', 'a']
        = .error (-ENOENT)
      ↔ kvlookup ([((['a'] : Name), ([1, 2] : Bytes))] : Store)
          (FILE_NAME ['/', 'a']) = none) ∧
     (kvlookup ([((['a'] : Name), ([1, 2] : Bytes))] : Store)
        (FILE_NAME ['/', 'a']) ≠ none →
       f4r_getattr ([((['a'] : Name), ([1, 2] : Bytes))] : Store) ['/', 'a']
         = .ok ⟨S_IRWXA ||| S_IFREG,
                ((kvlookup ([((['a'] : Name), ([1, 2] : Bytes))] : Store)
                   (FILE_NAME ['/', 'a'])).getD []).length, 512,
                if ((kvlookup ([((['a'] : Name), ([1, 2] : Bytes))] : Store)
                     (FILE_NAME ['/', 'a'])).getD []).length > 0
                then ((kvlookup ([((['a'] : Name), ([1, 2] : Bytes))] : Store)
                       (FILE_NAME ['/', 'a'])).getD []).length / 512 + 1
                else 0⟩) ∧
     f4r_getattr ([((['a'] : Name), ([1, 2] : Bytes))] : Store) rootPath
       = .ok ⟨S_IRWXA ||| S_IFDIR, 0, 512, 0⟩) :=
  ⟨by decide, by decide,
   c6_getattr_reports [((['a'] : Name), ([1, 2] : Bytes))] ['/', 'a']
     (by decide) (by decide)⟩

lemma mknod_excl_present (s : Store) (path : Name) (mode : Nat) (v : Bytes)
    (hreg : mode &&& S_IFMT = S_IFREG) (hexcl : mode &&& O_EXCL ≠ 0)
    (hv : kvlookup s (FILE_NAME path) = some v) :
    f4r_mknod s path mode = (-EEXIST, s) := by
  unfold f4r_mknod
  rw [if_neg (by simp [hreg]), if_pos hexcl,
      keyExists_present s (FILE_NAME path) v hv]
  norm_num [EEXIST]

lemma mknod_excl_absent (s : Store) (path : Name) (mode : Nat)
    (hreg : mode &&& S_IFMT = S_IFREG) (hexcl : mode &&& O_EXCL ≠ 0)
    (hv : kvlookup s (FILE_NAME path) = none) :
    f4r_mknod s path mode = (0, kvset s (FILE_NAME path) []) := by
  unfold f4r_mknod
  rw [if_neg (by simp [hreg]), if_pos hexcl,
      keyExists_absent s (FILE_NAME path) hv]
  norm_num
  rfl

/-- C7: after a successful exclusive create of a name, a second exclusive
create of the same name fails with -EEXIST; and a create request whose mode
is not a regular file is rejected with -EINVAL. -/
theorem c7_exclusive_create (s : Store) (path : Name) (mode m2 : Nat)
    (hreg : mode &&& S_IFMT = S_IFREG) (hexcl : mode &&& O_EXCL ≠ 0)
    (hsucc : (f4r_mknod s path mode).1 = 0)
    (hm2 : m2 &&& S_IFMT ≠ S_IFREG) :
    (f4r_mknod (f4r_mknod s path mode).2 path mode).1 = -EEXIST ∧
    (f4r_mknod s path m2).1 = -EINVAL := by
  constructor
  · cases hcase : kvlookup s (FILE_NAME path) with
    | some v =>
      rw [mknod_excl_present s path mode v hreg hexcl hcase] at hsucc
      simp [EEXIST] at hsucc
    | none =>
      rw [mknod_excl_absent s path mode hreg hexcl hcase]
      dsimp only
      rw [mknod_excl_present (kvset s (FILE_NAME path) []) path mode []
          hreg hexcl (kvlookup_kvset_self s (FILE_NAME path) [])]
  · unfold f4r_mknod
    rw [if_pos hm2]

/-- Witness for C7 at a concrete input: exclusive create of "/a" on an empty
store (mode 0100000 | 0200), then again; plus a directory-mode request. -/
theorem c7_witness :
    (32896 : Nat) &&& S_IFMT = S_IFREG ∧ (32896 : Nat) &&& O_EXCL ≠ 0 ∧
    (f4r_mknod ([] : Store) ['/', 'a'] 32896).1 = 0 ∧
    (16384 : Nat) &&& S_IFMT ≠ S_IFREG ∧
    ((f4r_mknod (f4r_mknod ([] : Store) ['/', 'a'] 32896).2 ['/', 'a']
        32896).1 = -EEXIST ∧
     (f4r_mknod ([] : Store) ['/', 'a'] 16384).1 = -EINVAL) :=
  ⟨by decide, by decide, by decide, by decide,
   c7_exclusive_create [] ['/', 'a'] 32896 16384 (by decide) (by decide)
     (by decide) (by decide)⟩

lemma delete_absent (s : Store) (name : Name)
    (h : kvlookup s name = none) : kvs_DeleteKey s name = (-ENOENT, s) := by
  simp [kvs_DeleteKey, redisDEL, h, kvs_run_int]

lemma delete_present (s : Store) (name : Name) (v : Bytes)
    (hv : kvlookup s name = some v) :
    kvs_DeleteKey s name = (0, kverase s name) := by
  simp [kvs_DeleteKey, redisDEL, hv, kvs_run_int]

/-- C8: delete removes an existing key and returns 0; deleting an absent key
fails with -ENOENT and leaves the store unchanged; hence deleting the same
existing name twice succeeds the first time and fails the second time with
-ENOENT. -/
theorem c8_delete_semantics (s : Store) (name : Name) :
    (kvlookup s name = none → kvs_DeleteKey s name = (-ENOENT, s)) ∧
    (kvlookup s name ≠ none →
      (kvs_DeleteKey s name).1 = 0 ∧
      kvlookup (kvs_DeleteKey s name).2 name = none ∧
      (kvs_DeleteKey (kvs_DeleteKey s name).2 name).1 = -ENOENT) := by
  constructor
  · intro h
    exact delete_absent s name h
  · intro h
    rcases Option.ne_none_iff_exists'.mp h with ⟨v, hv⟩
    rw [delete_present s name v hv]
    dsimp only
    refine ⟨rfl, kvlookup_kverase_self s name, ?_⟩
    rw [delete_absent (kverase s name) name (kvlookup_kverase_self s name)]

/-- Witness for C8 at a concrete input: store holding only "a". -/
theorem c8_witness :
    (kvlookup ([((['a'] : Name), ([2] : Bytes))] : Store) ['a'] = none →
      kvs_DeleteKey ([((['a'] : Name), ([2] : Bytes))] : Store) ['a']
        = (-ENOENT, [((['a'] : Name), ([2] : Bytes))])) ∧
    (kvlookup ([((['a'] : Name), ([2] : Bytes))] : Store) ['a'] ≠ none →
      (kvs_DeleteKey ([((['a'] : Name), ([2] : Bytes))] : Store) ['a']).1 = 0 ∧
      kvlookup (kvs_DeleteKey ([((['a'] : Name), ([2] : Bytes))] : Store)
          ['a']).2 ['a'] = none ∧
      (kvs_DeleteKey (kvs_DeleteKey ([((['a'] : Name), ([2] : Bytes))] : Store)
          ['a']).2 ['a']).1 = -ENOENT) :=
  c8_delete_semantics [((['a'] : Name), ([2] : Bytes))] ['a']

lemma readDirectory_eval {σ : Type} (s : Store) (filler : σ → Name → Option σ)
    (buf : σ) : kvs_ReadDirectory s filler buf = fillAll filler (keysOf s) buf := by
  unfold kvs_ReadDirectory redisKEYS
  rw [kvs_run_arr]
  norm_num

/-- C9: listing delivers the key names to the sink one at a time: with a sink
that always has room every key is delivered and the operation succeeds
(0); with a sink whose capacity is below the number of keys the enumeration
stops with an out-of-space result (-ENOMEM); and after creating any list of
distinct names on an empty store, listing delivers exactly those names. -/
theorem c9_readdir_enumeration (names : List Name) (s : Store) (cap : Nat)
    (hnd : names.Nodup) (hcap : cap < (keysOf s).length) :
    kvs_ReadDirectory s collectSink [] = (0, keysOf s) ∧
    (kvs_ReadDirectory s (cappedSink cap) []).1 = -ENOMEM ∧
    kvs_ReadDirectory (createAll names) collectSink [] = (0, names) := by
  have hkeys : keysOf (createAll names) = names := by
    have h := keysOf_foldl_create names [] hnd (by intro m _; rfl)
    simpa [createAll, keysOf] using h
  refine ⟨?_, ?_, ?_⟩
  · rw [readDirectory_eval, fillAll_collect]
    simp
  · rw [readDirectory_eval]
    exact fillAll_capped cap (keysOf s) [] (by simp) (by simpa using hcap)
  · rw [readDirectory_eval, hkeys, fillAll_collect]
    simp

/-- Witness for C9 at a concrete input: two keys, a collecting sink, and a
sink of capacity 1. -/
theorem c9_witness :
    ([(['a'] : Name), (['b'] : Name)] : List Name).Nodup ∧
    1 < (keysOf ([((['a'] : Name), ([] : Bytes)),
                  ((['b'] : Name), ([] : Bytes))] : Store)).length ∧
    (kvs_ReadDirectory ([((['a'] : Name), ([] : Bytes)),
        ((['b'] : Name), ([] : Bytes))] : Store) collectSink []
      = (0, keysOf ([((['a'] : Name), ([] : Bytes)),
                     ((['b'] : Name), ([] : Bytes))] : Store)) ∧
     (kvs_ReadDirectory ([((['a'] : Name), ([] : Bytes)),
         ((['b'] : Name), ([] : Bytes))] : Store) (cappedSink 1) []).1
       = -ENOMEM ∧
     kvs_ReadDirectory (createAll [(['a'] : Name), (['b'] : Name)])
         collectSink [] = (0, [(['a'] : Name), (['b'] : Name)])) :=
  ⟨by decide, by decide,
   c9_readdir_enumeration [['a'], ['b']]
     [((['a'] : Name), ([] : Bytes)), ((['b'] : Name), ([] : Bytes))] 1
     (by decide) (by decide)⟩

/-- C10 counterexample: at the root path "/" (on the empty store) the
handle-based fgetattr — which strips the path before delegating, so the
inner getattr sees "" rather than "/" — reports -ENOENT, while the
path-based getattr reports the root directory; the two entry points
therefore do not return the same result for every path. -/
theorem c10_counterexample :
    f4r_fgetattr ([] : Store) rootPath = .error (-ENOENT) ∧
    f4r_getattr ([] : Store) rootPath
      = .ok ⟨S_IRWXA ||| S_IFDIR, 0, 512, 0⟩ ∧
    f4r_fgetattr ([] : Store) rootPath ≠ f4r_getattr ([] : Store) rootPath := by
  have h1 : f4r_fgetattr ([] : Store) rootPath = .error (-ENOENT) := rfl
  have h2 : f4r_getattr ([] : Store) rootPath
      = .ok ⟨S_IRWXA ||| S_IFDIR, 0, 512, 0⟩ := rfl
  refine ⟨h1, h2, ?_⟩
  rw [h1, h2]
  intro h
  exact Except.noConfusion h

/-- C10 amended: for every path other than the root "/" and not beginning
with a doubled separator (the shapes on which stripping one separator is
not idempotent), the handle-based entry points coincide with the path-based
ones: f4r_ftruncate equals f4r_truncate and f4r_fgetattr equals
f4r_getattr, result and store effect alike. -/
theorem c10_handle_paths_agree (s : Store) (p : Name) (sz : Int)
    (hp : p ≠ rootPath) (hds : startsWithDoubleSep p = false) :
    f4r_ftruncate s p sz = f4r_truncate s p sz ∧
    f4r_fgetattr s p = f4r_getattr s p := by
  have hid := FILE_NAME_idem p hds
  have hnr := FILE_NAME_ne_root p hp hds
  constructor
  · unfold f4r_ftruncate f4r_truncate
    rw [hid]
  · unfold f4r_fgetattr f4r_getattr
    rw [hid, if_neg hnr, if_neg hp]

/-- Witness for C10 (amended) at a concrete input: path "/a" on a store
holding "a". -/
theorem c10_witness :
    (['/', 'a'] : Name) ≠ rootPath ∧
    startsWithDoubleSep ['/', 'a'] = false ∧
    (f4r_ftruncate ([((['a'] : Name), ([1] : Bytes))] : Store) ['/', 'a'] 0
       = f4r_truncate ([((['a'] : Name), ([1] : Bytes))] : Store) ['/', 'a'] 0 ∧
     f4r_fgetattr ([((['a'] : Name), ([1] : Bytes))] : Store) ['/', 'a']
       = f4r_getattr ([((['a'] : Name), ([1] : Bytes))] : Store) ['/', 'a']) :=
  ⟨by decide, by decide,
   c10_handle_paths_agree [((['a'] : Name), ([1] : Bytes))] ['/', 'a'] 0
     (by decide) (by decide)⟩

end Fuse4Redis
